import Mathlib

/-!
Verification of the PDF form-filler backend against its specification.

The definitions below are shallow embeddings of the Python source:
  * `backend/app/core/credit_manager.py` — the credit waterfall
    (`check_credits_available`, `calculate_credit_usage`, `apply_credit_usage`);
  * `archive-desktop-app/pdf_field_editor.py` — the field-flag codec
    (`get_field_attributes`, `get_field_flags`, `apply_field_flags`);
  * `backend/app/core/pdf_processor.py` — value normalisation (`clean_value`),
    header cleaning and the per-row batch loop (`process_csv_batch`,
    `process_single_pdf`).

Python integers are embedded as `Int` (they are unbounded; the database
balance columns hold ordinary ints), strings as `String`, dictionaries of
CSV rows as association lists in insertion order.  Document-model (PyMuPDF)
operations are out of scope per the specification; the embedding keeps the
decision logic that the claims are about (which rows fail, which succeed).
-/

namespace CreditManager

/-- Availability report computed by `check_credits_available`
(credit_manager.py lines 83–111).  The monthly allowance comes from the
user's subscription tier; `monthly_used` is `user.credits_used_this_month`,
`rollover` is `user.credits_rollover`, `topup` is `user.credits_remaining`. -/
structure Availability where
  monthly_available : Int
  rollover_available : Int
  topup_available : Int
  total_available : Int
  has_enough : Bool
  deriving Repr, DecidableEq

/-- Embedding of the pure core of `check_credits_available`
(credit_manager.py lines 83–111): the tier has been resolved, so
`monthly_allowance` is `tier.monthly_pdf_credits`. -/
def check_credits_available (monthly_allowance monthly_used rollover topup
    required : Int) : Availability :=
  let monthly_available := max 0 (monthly_allowance - monthly_used)
  let monthly_exhausted := monthly_used ≥ monthly_allowance
  let would_exceed_monthly := monthly_used + required > monthly_allowance
  let total_available :=
    if monthly_exhausted ∨ would_exceed_monthly then
      rollover + topup
    else
      monthly_available + rollover + topup
  { monthly_available := monthly_available
    rollover_available := rollover
    topup_available := topup
    total_available := total_available
    has_enough := total_available ≥ required }

/-- Consumption split returned by `calculate_credit_usage`
(credit_manager.py lines 159–198). -/
structure CreditUsage where
  subscription_credits_used : Int
  rollover_credits_used : Int
  topup_credits_used : Int
  total_credits_consumed : Int
  deriving Repr, DecidableEq

/-- Embedding of the pure core of `calculate_credit_usage`
(credit_manager.py lines 159–198). -/
def calculate_credit_usage (monthly_allowance monthly_used rollover topup
    required : Int) : CreditUsage :=
  let monthly_exhausted := monthly_used ≥ monthly_allowance
  let would_exceed_monthly := monthly_used + required > monthly_allowance
  if monthly_exhausted ∨ would_exceed_monthly then
    let rollover_credits_used := min required rollover
    let remaining_needed := required - rollover_credits_used
    let topup_credits_used := min remaining_needed topup
    { subscription_credits_used := 0
      rollover_credits_used := rollover_credits_used
      topup_credits_used := topup_credits_used
      total_credits_consumed := 0 + rollover_credits_used + topup_credits_used }
  else
    { subscription_credits_used := required
      rollover_credits_used := 0
      topup_credits_used := 0
      total_credits_consumed := required + 0 + 0 }

/-- The mutable balance fields of the `User` row that
`apply_credit_usage` updates. -/
structure UserBalances where
  credits_used_this_month : Int
  credits_rollover : Int
  credits_remaining : Int
  credits_used_total : Int
  total_pdf_runs : Int
  deriving Repr, DecidableEq

/-- Embedding of `apply_credit_usage` (credit_manager.py lines 225–246):
add the total to the monthly and lifetime counters, deduct the rollover and
top-up components with a floor at zero, bump the run counter. -/
def apply_credit_usage (u : UserBalances) (usage : CreditUsage) : UserBalances :=
  let rollover1 := u.credits_rollover - usage.rollover_credits_used
  let rollover2 := if rollover1 < 0 then 0 else rollover1
  let remaining1 := u.credits_remaining - usage.topup_credits_used
  let remaining2 := if remaining1 < 0 then 0 else remaining1
  { credits_used_this_month :=
      u.credits_used_this_month + usage.total_credits_consumed
    credits_rollover := rollover2
    credits_remaining := remaining2
    credits_used_total := u.credits_used_total + usage.total_credits_consumed
    total_pdf_runs := u.total_pdf_runs + 1 }

end CreditManager

namespace FieldEditor

/-- Python `1 << k` on non-negative ints. -/
def pybit (k : Nat) : Nat := 1 <<< k

/-- Python `a & ~m` for non-negative `a`, `m`: clear in `a` every bit set
in `m`. -/
def clearBits (a m : Nat) : Nat := a ^^^ (a &&& m)

/-- The flag-derived part of the attribute record built by
`get_field_attributes` (pdf_field_editor.py lines 34–56): `bool(flags & 2**12)`,
`bool(flags & 2**13)`, `bool(flags & 2**22)`, `bool(flags & 2**1)`. -/
structure FieldFlagView where
  is_multiline : Bool
  do_not_scroll : Bool
  do_not_spell_check : Bool
  do_not_type : Bool
  deriving Repr, DecidableEq

/-- Embedding of the flag decoding in `get_field_attributes`
(pdf_field_editor.py lines 34–56). -/
def get_field_attributes (flags : Nat) : FieldFlagView :=
  { is_multiline := flags.testBit 12
    do_not_scroll := flags.testBit 13
    do_not_spell_check := flags.testBit 22
    do_not_type := flags.testBit 1 }

/-- The attribute change set handed to `apply_field_flags`: each toggle is
either absent (`none`) or present with a boolean value. -/
structure AttributeChanges where
  is_multiline : Option Bool
  do_not_scroll : Option Bool
  do_not_spell_check : Option Bool
  do_not_type : Option Bool
  deriving Repr, DecidableEq

/-- Embedding of `get_field_flags` (pdf_field_editor.py lines 203–226):
clear the managed bits 12, 13, 22, 0 but put back bit 13 (called the
password bit there) and the alignment bits 24–25. -/
def get_field_flags (current_flags : Nat) : Nat :=
  let managed_bits := pybit 12 ||| pybit 13 ||| pybit 22 ||| pybit 0
  let password_bit := pybit 13
  let alignment_bits := 3 <<< 24
  clearBits current_flags managed_bits |||
    (current_flags &&& password_bit) ||| (current_flags &&& alignment_bits)

/-- One iteration of the `flag_mappings` loop in `apply_field_flags`:
`if attr in changes and changes[attr]: final_flags |= flag`. -/
def applyChange (flags : Nat) (change : Option Bool) (flagBit : Nat) : Nat :=
  match change with
  | some true => flags ||| flagBit
  | _ => flags

/-- Embedding of `apply_field_flags` (pdf_field_editor.py lines 228–259):
OR requested toggles into the preserved word, then force bit 13 back to the
widget's original value (`original_password`). -/
def apply_field_flags (widget_flags preserved_flags : Nat)
    (changes : AttributeChanges) : Nat :=
  let f1 := applyChange preserved_flags changes.is_multiline (pybit 12)
  let f2 := applyChange f1 changes.do_not_scroll (pybit 13)
  let f3 := applyChange f2 changes.do_not_spell_check (pybit 22)
  let f4 := applyChange f3 changes.do_not_type (pybit 0)
  let password_bit := pybit 13
  clearBits f4 password_bit ||| (widget_flags &&& password_bit)

/-- The full read-modify-write cycle performed in `save_modified_pdf`
(pdf_field_editor.py lines 261–300): read the widget's raw word `r`,
compute the preserved word with `get_field_flags`, then write back with
`apply_field_flags` (which consults the still-unmodified widget word for
the bit-13 restore). -/
def encode_flags (r : Nat) (changes : AttributeChanges) : Nat :=
  apply_field_flags r (get_field_flags r) changes

/-- The bits the specification declares managed: bit 0 (read-only / do not
type), 12 (multiline), 13 (do not scroll), 22 (do not spell check) and the
alignment field 24–25. -/
def managed_mask : Nat :=
  pybit 0 ||| pybit 12 ||| pybit 13 ||| pybit 22 ||| pybit 24 ||| pybit 25

/-- The foreign portion of a flag word: everything outside `managed_mask`. -/
def unmanaged_bits (n : Nat) : Nat := clearBits n managed_mask

end FieldEditor

namespace PDFProcessor

/-- Characters removed by Python `str.strip()` (the ASCII whitespace set;
the claims only exercise ASCII input). -/
def isPySpace (c : Char) : Bool :=
  c == ' ' || c == '\t' || c == '\n' || c == '\r' ||
    c == Char.ofNat 11 || c == Char.ofNat 12

/-- Python `str.strip()`: drop leading and trailing whitespace. -/
def pyStrip (s : String) : String :=
  ⟨((s.toList.dropWhile isPySpace).reverse.dropWhile isPySpace).reverse⟩

/-- Python `value.endswith('.0')`: the last two characters are `.` `0`. -/
def endsWithDotZero (s : String) : Bool :=
  match s.toList.reverse with
  | '0' :: '.' :: _ => true
  | _ => false

/-- Python `value[:-2]`: drop the final two characters. -/
def dropLast2 (s : String) : String :=
  ⟨s.toList.dropLast.dropLast⟩

/-- Embedding of `clean_value` (pdf_processor.py lines 16–30).  The input is
`none` for Python `None` and `some s` for the string form of any other
value (`str(value)`). -/
def clean_value : Option String → String
  | none => ""
  | some v =>
    let value := pyStrip v
    if endsWithDotZero value then dropLast2 value else value

/-- One CSV row as produced by `csv.DictReader`: an association list of
column name to cell value, in header order, keys distinct. -/
abbrev Row := List (String × String)

/-- The keys of a row (`row_data.keys()`). -/
def rowKeys (r : Row) : List String := r.map Prod.fst

/-- Python `row.pop(k)` on a dict: `none` when the key is absent (a
`KeyError`), otherwise the value together with the dict minus that key. -/
def popKey (k : String) (row : Row) : Option (String × Row) :=
  match row.lookup k with
  | none => none
  | some v => some (v, row.filter (fun p => p.1 != k))

/-- Embedding of the widget-matching outcome of `process_single_pdf`
(pdf_processor.py lines 54–95): the row's data is matched against the
template's widget names; with zero matches the method logs and returns
`False` (line 93–95), otherwise it fills and saves the document — the
document-model operations themselves are external and modelled as
succeeding, so the method returns `True`. -/
def process_single_pdf (widget_names : List String) (row_data : Row) : Bool :=
  let target_widgets := widget_names.filter (fun w => (rowKeys row_data).contains w)
  !target_widgets.isEmpty

/-- Embedding of the per-row loop of `process_csv_batch`
(pdf_processor.py lines 215–233), with `i` the 1-based index of the first
row of the remaining list.  Each row pops `Filename` (a missing key raises
and is caught per row), then runs `process_single_pdf`; failures append an
error message and the loop continues. -/
def batch_loop (widget_names : List String) : Nat → List Row → Nat × List String
  | _, [] => (0, [])
  | i, row :: rest =>
    let tail := batch_loop widget_names (i + 1) rest
    match popKey "Filename" row with
    | none =>
      (tail.1, ("Error processing row " ++ toString i ++ ": Filename") :: tail.2)
    | some (output_filename, data) =>
      if process_single_pdf widget_names data then
        (tail.1 + 1, tail.2)
      else
        (tail.1, ("Failed to process PDF " ++ toString i ++ ": " ++ output_filename)
          :: tail.2)

/-- The byte-order mark U+FEFF. -/
def bomChar : Char := Char.ofNat 65279

/-- Python `name.replace(chr(65279), '')`: remove every byte-order mark
occurrence from a header name. -/
def replaceBOM (s : String) : String :=
  ⟨s.toList.filter (fun c => c != bomChar)⟩

/-- Python dict assignment `d[k] = v` on an insertion-ordered dict: if the
key is already present its value is overwritten in place, otherwise the
binding is appended. -/
def dictInsert (d : Row) (k v : String) : Row :=
  if (d.map Prod.fst).contains k then
    d.map (fun p => if p.1 == k then (k, v) else p)
  else
    d ++ [(k, v)]

/-- A Python dict comprehension over a list of key/value pairs: bindings
are inserted left to right, so a key occurring twice keeps its first
position and its last value. -/
def dictOfPairs (l : List (String × String)) : Row :=
  l.foldl (fun d p => dictInsert d p.1 p.2) []

/-- Embedding of the header clean-up of `process_csv_batch`
(pdf_processor.py lines 203–209): the first row's keys are cleaned and every
row is rebuilt by the dict comprehension
`{cleaned_fieldnames[i]: row[orig_name] for i, orig_name in enumerate(row.keys())}`.
`DictReader` rows have unique keys in header order, so `row[orig_name]` at
index `i` is the row's `i`-th value and the comprehension consumes the pairs
`cleaned_fieldnames.zip` the row's values; names that become equal after
BOM removal are collapsed by the dict (last value wins). -/
def clean_fieldnames (rows : List Row) : List Row :=
  match rows with
  | [] => []
  | r0 :: _ =>
    let cleaned_fieldnames := (rowKeys r0).map replaceBOM
    rows.map (fun row => dictOfPairs (cleaned_fieldnames.zip (row.map Prod.snd)))

/-- Embedding of `process_csv_batch` (pdf_processor.py lines 188–238):
clean the header names, then run the per-row loop; returns
`(successful, total_rows, errors)`. -/
def process_csv_batch (widget_names : List String) (rows : List Row) :
    Nat × Nat × List String :=
  let rows2 := clean_fieldnames rows
  let result := batch_loop widget_names 1 rows2
  (result.1, rows2.length, result.2)

end PDFProcessor

open CreditManager FieldEditor PDFProcessor

/-- C1: for every balance state and required amount, `check_credits_available`
computes `total_available` as `rollover + topup` when the monthly allowance is
exhausted (`monthly_used ≥ monthly_allowance`) or the job would exceed it
(`monthly_used + required > monthly_allowance`), and as
`max 0 (monthly_allowance - monthly_used) + rollover + topup` otherwise, and
reports sufficiency exactly when `total_available ≥ required`. -/
theorem check_credits_available_total_and_sufficiency
    (ma mu ro tu req : Int) :
    (check_credits_available ma mu ro tu req).total_available =
      (if mu ≥ ma ∨ mu + req > ma then ro + tu
       else max 0 (ma - mu) + ro + tu) ∧
    ((check_credits_available ma mu ro tu req).has_enough = true ↔
      (check_credits_available ma mu ro tu req).total_available ≥ req) := by
  unfold check_credits_available
  refine ⟨rfl, ?_⟩
  simp

/-- C2: whenever `check_credits_available` reports sufficiency (for
non-negative rollover and top-up balances), the split computed by
`calculate_credit_usage` sums to the required amount; if monthly is neither
exhausted nor would be exceeded it is all subscription, otherwise
subscription is zero, rollover is drawn first and the remainder comes from
top-up. -/
theorem calculate_credit_usage_split (ma mu ro tu req : Int)
    (hro : 0 ≤ ro) (htu : 0 ≤ tu)
    (hsuff : (check_credits_available ma mu ro tu req).has_enough = true) :
    (calculate_credit_usage ma mu ro tu req).subscription_credits_used +
        (calculate_credit_usage ma mu ro tu req).rollover_credits_used +
        (calculate_credit_usage ma mu ro tu req).topup_credits_used = req ∧
    (¬(mu ≥ ma ∨ mu + req > ma) →
      (calculate_credit_usage ma mu ro tu req).subscription_credits_used = req ∧
      (calculate_credit_usage ma mu ro tu req).rollover_credits_used = 0 ∧
      (calculate_credit_usage ma mu ro tu req).topup_credits_used = 0) ∧
    ((mu ≥ ma ∨ mu + req > ma) →
      (calculate_credit_usage ma mu ro tu req).subscription_credits_used = 0 ∧
      (calculate_credit_usage ma mu ro tu req).rollover_credits_used =
        min req ro ∧
      (calculate_credit_usage ma mu ro tu req).topup_credits_used =
        req - min req ro) := by
  simp only [check_credits_available, decide_eq_true_eq] at hsuff
  simp only [calculate_credit_usage]
  split_ifs with h <;> simp_all <;> omega

/-- Witness for C2 at the spec's worked example extended to a sufficient
request: allowance 100, used 100 (exhausted), rollover 10, top-up 5,
required 12. -/
theorem calculate_credit_usage_split_witness :
    ((0 : Int) ≤ 10 ∧ (0 : Int) ≤ 5 ∧
      (check_credits_available 100 100 10 5 12).has_enough = true) ∧
    ((calculate_credit_usage 100 100 10 5 12).subscription_credits_used +
        (calculate_credit_usage 100 100 10 5 12).rollover_credits_used +
        (calculate_credit_usage 100 100 10 5 12).topup_credits_used = 12 ∧
    (¬((100 : Int) ≥ 100 ∨ (100 : Int) + 12 > 100) →
      (calculate_credit_usage 100 100 10 5 12).subscription_credits_used = 12 ∧
      (calculate_credit_usage 100 100 10 5 12).rollover_credits_used = 0 ∧
      (calculate_credit_usage 100 100 10 5 12).topup_credits_used = 0) ∧
    (((100 : Int) ≥ 100 ∨ (100 : Int) + 12 > 100) →
      (calculate_credit_usage 100 100 10 5 12).subscription_credits_used = 0 ∧
      (calculate_credit_usage 100 100 10 5 12).rollover_credits_used =
        min 12 10 ∧
      (calculate_credit_usage 100 100 10 5 12).topup_credits_used =
        12 - min 12 10)) :=
  ⟨⟨by decide, by decide, by decide⟩,
    calculate_credit_usage_split 100 100 10 5 12 (by decide) (by decide)
      (by decide)⟩

/-- C5: applying a consumption split adds its total to both the monthly and
lifetime counters, increments the job counter by exactly one, deducts the
rollover and top-up components floored at zero, and therefore never leaves
either balance negative. -/
theorem apply_credit_usage_spec (u : UserBalances) (usage : CreditUsage) :
    (apply_credit_usage u usage).credits_used_this_month =
      u.credits_used_this_month + usage.total_credits_consumed ∧
    (apply_credit_usage u usage).credits_used_total =
      u.credits_used_total + usage.total_credits_consumed ∧
    (apply_credit_usage u usage).total_pdf_runs = u.total_pdf_runs + 1 ∧
    (apply_credit_usage u usage).credits_rollover =
      max 0 (u.credits_rollover - usage.rollover_credits_used) ∧
    (apply_credit_usage u usage).credits_remaining =
      max 0 (u.credits_remaining - usage.topup_credits_used) ∧
    0 ≤ (apply_credit_usage u usage).credits_rollover ∧
    0 ≤ (apply_credit_usage u usage).credits_remaining := by
  simp only [apply_credit_usage]
  rw [max_def, max_def]
  split_ifs <;> simp_all <;> omega

/-- C10: on any balance state with non-negative rollover and top-up and any
non-negative required amount (sufficient or not), `calculate_credit_usage`
never draws more from a source than it holds, so the floor-at-zero branches
of `apply_credit_usage` are unreachable: the deductions are exact. -/
theorem calculate_credit_usage_bounds (ma mu req : Int) (u : UserBalances)
    (hro : 0 ≤ u.credits_rollover) (htu : 0 ≤ u.credits_remaining)
    (hreq : 0 ≤ req) :
    0 ≤ (calculate_credit_usage ma mu u.credits_rollover
          u.credits_remaining req).rollover_credits_used ∧
    (calculate_credit_usage ma mu u.credits_rollover
        u.credits_remaining req).rollover_credits_used ≤ u.credits_rollover ∧
    0 ≤ (calculate_credit_usage ma mu u.credits_rollover
          u.credits_remaining req).topup_credits_used ∧
    (calculate_credit_usage ma mu u.credits_rollover
        u.credits_remaining req).topup_credits_used ≤ u.credits_remaining ∧
    (apply_credit_usage u (calculate_credit_usage ma mu u.credits_rollover
        u.credits_remaining req)).credits_rollover =
      u.credits_rollover - (calculate_credit_usage ma mu u.credits_rollover
        u.credits_remaining req).rollover_credits_used ∧
    (apply_credit_usage u (calculate_credit_usage ma mu u.credits_rollover
        u.credits_remaining req)).credits_remaining =
      u.credits_remaining - (calculate_credit_usage ma mu u.credits_rollover
        u.credits_remaining req).topup_credits_used := by
  simp only [calculate_credit_usage, apply_credit_usage]
  split_ifs <;> simp_all <;> omega

/-- Witness for C10: allowance 100, used 100 (monthly exhausted), balances
rollover 3, top-up 4, required 5. -/
theorem calculate_credit_usage_bounds_witness :
    ((0 : Int) ≤ (UserBalances.mk 7 3 4 9 2).credits_rollover ∧
      (0 : Int) ≤ (UserBalances.mk 7 3 4 9 2).credits_remaining ∧
      (0 : Int) ≤ 5) ∧
    (0 ≤ (calculate_credit_usage 100 100 (UserBalances.mk 7 3 4 9 2).credits_rollover
          (UserBalances.mk 7 3 4 9 2).credits_remaining 5).rollover_credits_used ∧
    (calculate_credit_usage 100 100 (UserBalances.mk 7 3 4 9 2).credits_rollover
        (UserBalances.mk 7 3 4 9 2).credits_remaining 5).rollover_credits_used ≤
      (UserBalances.mk 7 3 4 9 2).credits_rollover ∧
    0 ≤ (calculate_credit_usage 100 100 (UserBalances.mk 7 3 4 9 2).credits_rollover
          (UserBalances.mk 7 3 4 9 2).credits_remaining 5).topup_credits_used ∧
    (calculate_credit_usage 100 100 (UserBalances.mk 7 3 4 9 2).credits_rollover
        (UserBalances.mk 7 3 4 9 2).credits_remaining 5).topup_credits_used ≤
      (UserBalances.mk 7 3 4 9 2).credits_remaining ∧
    (apply_credit_usage (UserBalances.mk 7 3 4 9 2)
        (calculate_credit_usage 100 100 (UserBalances.mk 7 3 4 9 2).credits_rollover
          (UserBalances.mk 7 3 4 9 2).credits_remaining 5)).credits_rollover =
      (UserBalances.mk 7 3 4 9 2).credits_rollover -
        (calculate_credit_usage 100 100 (UserBalances.mk 7 3 4 9 2).credits_rollover
          (UserBalances.mk 7 3 4 9 2).credits_remaining 5).rollover_credits_used ∧
    (apply_credit_usage (UserBalances.mk 7 3 4 9 2)
        (calculate_credit_usage 100 100 (UserBalances.mk 7 3 4 9 2).credits_rollover
          (UserBalances.mk 7 3 4 9 2).credits_remaining 5)).credits_remaining =
      (UserBalances.mk 7 3 4 9 2).credits_remaining -
        (calculate_credit_usage 100 100 (UserBalances.mk 7 3 4 9 2).credits_rollover
          (UserBalances.mk 7 3 4 9 2).credits_remaining 5).topup_credits_used) :=
  ⟨⟨by decide, by decide, by decide⟩,
    calculate_credit_usage_bounds 100 100 5 (UserBalances.mk 7 3 4 9 2)
      (by decide) (by decide) (by decide)⟩

/-- Bit `i` of `clearBits a m`. -/
theorem FieldEditor.testBit_clearBits (a m i : Nat) :
    (clearBits a m).testBit i = (a.testBit i && !(m.testBit i)) := by
  simp only [clearBits, Nat.testBit_xor, Nat.testBit_and]
  cases a.testBit i <;> cases m.testBit i <;> rfl

/-- Bit `i` of `pybit k`. -/
theorem FieldEditor.testBit_pybit (k i : Nat) :
    (pybit k).testBit i = decide (k = i) := by
  rw [pybit, Nat.one_shiftLeft]
  exact Nat.testBit_two_pow

/-- Bit `i` of one `flag_mappings` loop iteration. -/
theorem FieldEditor.testBit_applyChange (f : Nat) (c : Option Bool)
    (b i : Nat) :
    (applyChange f c b).testBit i =
      (f.testBit i || ((c == some true) && b.testBit i)) := by
  match c with
  | none => simp [applyChange]
  | some true => simp [applyChange, Nat.testBit_or]
  | some false => simp [applyChange]

/-- The alignment constant `3 << 24` is bits 24 and 25. -/
theorem FieldEditor.alignment_bits_eq : (3 <<< 24 : Nat) = pybit 24 ||| pybit 25 := by
  decide

/-- The read-modify-write cycle only ever changes bits 0, 12, 13 and 22. -/
theorem FieldEditor.encode_flags_testBit_untouched (r : Nat)
    (c : AttributeChanges) (i : Nat)
    (h0 : i ≠ 0) (h12 : i ≠ 12) (h13 : i ≠ 13) (h22 : i ≠ 22)
    (h24 : i ≠ 24) (h25 : i ≠ 25) :
    (encode_flags r c).testBit i = r.testBit i := by
  have e0 : (0 : Nat) ≠ i := fun he => h0 he.symm
  have e12 : (12 : Nat) ≠ i := fun he => h12 he.symm
  have e13 : (13 : Nat) ≠ i := fun he => h13 he.symm
  have e22 : (22 : Nat) ≠ i := fun he => h22 he.symm
  have e24 : (24 : Nat) ≠ i := fun he => h24 he.symm
  have e25 : (25 : Nat) ≠ i := fun he => h25 he.symm
  simp only [encode_flags, apply_field_flags, get_field_flags,
    alignment_bits_eq, testBit_applyChange, testBit_clearBits,
    Nat.testBit_or, Nat.testBit_and, testBit_pybit]
  simp [e0, e12, e13, e22, e24, e25]

/-- C4: the read-modify-write encode cycle (`get_field_flags` followed by
`apply_field_flags`) leaves every bit outside the managed set
{0, 12, 13, 22, 24, 25} unchanged: `unmanaged_bits (encode_flags r c) =
unmanaged_bits r` for every raw word `r` and change set `c`. -/
theorem encode_flags_preserves_unmanaged_bits (r : Nat)
    (c : AttributeChanges) :
    unmanaged_bits (encode_flags r c) = unmanaged_bits r := by
  apply Nat.eq_of_testBit_eq
  intro i
  simp only [unmanaged_bits, FieldEditor.testBit_clearBits, managed_mask,
    Nat.testBit_or, FieldEditor.testBit_pybit]
  by_cases hm : 0 = i ∨ 12 = i ∨ 13 = i ∨ 22 = i ∨ 24 = i ∨ 25 = i
  · rcases hm with h | h | h | h | h | h <;> subst h <;> simp
  · push_neg at hm
    obtain ⟨m0, m12, m13, m22, m24, m25⟩ := hm
    rw [FieldEditor.encode_flags_testBit_untouched r c i
      (fun he => m0 he.symm) (fun he => m12 he.symm) (fun he => m13 he.symm)
      (fun he => m22 he.symm) (fun he => m24 he.symm) (fun he => m25 he.symm)]

/-- C3 (failing evaluation): the decode of an encode does not reproduce the
toggles that were set.  With raw word 0, requesting `do_not_scroll := true`
encodes to a word whose decode still reports `do_not_scroll = false`
(`apply_field_flags` forces bit 13 back to the widget's original value), and
requesting `do_not_type := true` encodes bit 0 while `get_field_attributes`
decodes bit 1, so it also reads back `false`. -/
theorem flag_roundtrip_fails_on_scroll_and_type :
    (get_field_attributes (encode_flags 0
      { is_multiline := none, do_not_scroll := some true,
        do_not_spell_check := none, do_not_type := none })).do_not_scroll
        = false ∧
    (get_field_attributes (encode_flags 0
      { is_multiline := none, do_not_scroll := none,
        do_not_spell_check := none, do_not_type := some true })).do_not_type
        = false := by
  decide

/-- C6 (counterexample): `clean_value` is not idempotent.  On `"1.0.0"` the
first pass drops the trailing `".0"` giving `"1.0"`, and a second pass drops
again, giving `"1"`. -/
theorem clean_value_not_idempotent :
    clean_value (some "1.0.0") = "1.0" ∧
    clean_value (some (clean_value (some "1.0.0"))) = "1" ∧
    clean_value (some (clean_value (some "1.0.0"))) ≠
      clean_value (some "1.0.0") := by
  decide

/-- Stripping whitespace never lengthens a string. -/
theorem PDFProcessor.pyStrip_length_le (s : String) :
    (pyStrip s).toList.length ≤ s.toList.length := by
  show (((s.toList.dropWhile isPySpace).reverse.dropWhile
      isPySpace).reverse).length ≤ s.toList.length
  rw [List.length_reverse]
  calc ((s.toList.dropWhile isPySpace).reverse.dropWhile isPySpace).length
      ≤ (s.toList.dropWhile isPySpace).reverse.length :=
        (List.dropWhile_suffix isPySpace).length_le
    _ = (s.toList.dropWhile isPySpace).length := List.length_reverse _
    _ ≤ s.toList.length := (List.dropWhile_suffix isPySpace).length_le

/-- A string ending in `".0"` has at least the two characters `.` `0`. -/
theorem PDFProcessor.two_le_length_of_endsWithDotZero (s : String)
    (h : endsWithDotZero s = true) : 2 ≤ s.toList.length := by
  rw [← List.length_reverse]
  unfold endsWithDotZero at h
  rcases hrev : s.toList.reverse with _ | ⟨c, tl⟩
  · rw [hrev] at h
    simp at h
  · rcases tl with _ | ⟨c2, tl2⟩
    · rw [hrev] at h
      rcases hc : c == '0' with _ | _ <;> simp [hc] at h
    · simp [hrev]

/-- C6 (amended): `clean_value` maps `None` to `""`, the string form of
`12.0` to `"12"` and `" 7 "` to `"7"`; a second application is the identity
exactly when the first result is already whitespace-trimmed and does not
end in `".0"` — whenever either condition fails the second pass strictly
shortens the string (the `".0"` drop removes two characters; the
counterexample `"1.0.0"` is such a case). -/
theorem clean_value_examples_and_idempotence_iff (v : Option String) :
    clean_value none = "" ∧
    clean_value (some "12.0") = "12" ∧
    clean_value (some " 7 ") = "7" ∧
    (clean_value (some (clean_value v)) = clean_value v ↔
      (pyStrip (clean_value v) = clean_value v ∧
        endsWithDotZero (clean_value v) = false)) := by
  refine ⟨by decide, by decide, by decide, ?_⟩
  generalize clean_value v = s
  constructor
  · intro h
    by_cases hd : endsWithDotZero (pyStrip s) = true
    · exfalso
      have h2 : 2 ≤ (pyStrip s).toList.length :=
        PDFProcessor.two_le_length_of_endsWithDotZero _ hd
      have hle := PDFProcessor.pyStrip_length_le s
      have hres : clean_value (some s) = dropLast2 (pyStrip s) := by
        simp [clean_value, hd]
      have hlen : (dropLast2 (pyStrip s)).toList.length = s.toList.length := by
        rw [← hres, h]
      have hdl : (dropLast2 (pyStrip s)).toList.length =
          (pyStrip s).toList.length - 2 := by
        show ((pyStrip s).toList.dropLast.dropLast).length = _
        rw [List.length_dropLast, List.length_dropLast]
        omega
      omega
    · have hb : endsWithDotZero (pyStrip s) = false := by
        simpa using hd
      have hres : clean_value (some s) = pyStrip s := by
        simp [clean_value, hb]
      have hps : pyStrip s = s := by rw [← hres, h]
      exact ⟨hps, by rw [← hps]; exact hb⟩
  · rintro ⟨h1, h2⟩
    simp only [clean_value]
    rw [h1, h2]
    simp

/-- A row whose data shares no key with the template's widget names makes
`process_single_pdf` return `False` (zero matching widgets,
pdf_processor.py lines 89–95). -/
theorem PDFProcessor.process_single_pdf_no_match (widget_names : List String)
    (data : Row)
    (h : (rowKeys data).all (fun k => !(widget_names.contains k)) = true) :
    process_single_pdf widget_names data = false := by
  simp only [process_single_pdf, Bool.not_eq_false', List.isEmpty_iff,
    List.filter_eq_nil_iff]
  intro w hw hcon
  simp only [List.all_eq_true] at h
  have h2 := h w (by simpa using hcon)
  simp [hw] at h2

/-- C7: a row whose data (after popping `Filename`) shares no column name
with any template widget fails with a per-row `Failed to process PDF` entry,
and the batch loop still reports the outcomes of every other row: the
result decomposes into the outcomes of the rows before, the failure, and
the outcomes of the rows after. -/
theorem batch_continues_after_unmatched_row (widget_names : List String)
    (i : Nat) (pre post : List Row) (bad : Row) (fname : String) (data : Row)
    (hpop : popKey "Filename" bad = some (fname, data))
    (hnomatch : (rowKeys data).all (fun k => !(widget_names.contains k)) = true) :
    batch_loop widget_names i (pre ++ bad :: post) =
      ((batch_loop widget_names i pre).1 +
          (batch_loop widget_names (i + pre.length + 1) post).1,
        (batch_loop widget_names i pre).2 ++
          ("Failed to process PDF " ++ toString (i + pre.length) ++ ": " ++ fname)
            :: (batch_loop widget_names (i + pre.length + 1) post).2) := by
  induction pre generalizing i with
  | nil =>
    simp only [List.nil_append, batch_loop, hpop, List.length_nil, Nat.add_zero]
    rw [PDFProcessor.process_single_pdf_no_match widget_names data hnomatch]
    simp [batch_loop]
  | cons r pre ih =>
    have hidx : i + 1 + pre.length = i + (pre.length + 1) := by omega
    simp only [List.cons_append, batch_loop, List.length_cons, List.append_eq]
    rw [ih (i + 1), hidx]
    rcases hr : popKey "Filename" r with _ | ⟨fn, dt⟩
    · simp only [hr, List.cons_append]
    · simp only [hr]
      cases hps : process_single_pdf widget_names dt
      · simp only [Bool.false_eq_true, if_false, List.cons_append]
      · simp only [if_true, Prod.mk.injEq]
        exact ⟨by omega, trivial⟩

/-- Witness for C7: template widget `Name`, one good row before, a row with
only an unmatched `Other` column in the middle, one good row after. -/
theorem batch_continues_after_unmatched_row_witness :
    (popKey "Filename" [("Other", "y"), ("Filename", "b.pdf")] =
        some ("b.pdf", [("Other", "y")]) ∧
      (rowKeys [("Other", "y")]).all
        (fun k => !((["Name"] : List String).contains k)) = true) ∧
    batch_loop ["Name"] 1
        ([[("Name", "x"), ("Filename", "a.pdf")]] ++
          [("Other", "y"), ("Filename", "b.pdf")] ::
            [[("Name", "z"), ("Filename", "c.pdf")]]) =
      ((batch_loop ["Name"] 1 [[("Name", "x"), ("Filename", "a.pdf")]]).1 +
          (batch_loop ["Name"] (1 + [[("Name", "x"), ("Filename", "a.pdf")]].length + 1)
            [[("Name", "z"), ("Filename", "c.pdf")]]).1,
        (batch_loop ["Name"] 1 [[("Name", "x"), ("Filename", "a.pdf")]]).2 ++
          ("Failed to process PDF " ++
              toString (1 + [[("Name", "x"), ("Filename", "a.pdf")]].length) ++
              ": " ++ "b.pdf")
            :: (batch_loop ["Name"]
                (1 + [[("Name", "x"), ("Filename", "a.pdf")]].length + 1)
                [[("Name", "z"), ("Filename", "c.pdf")]]).2) :=
  ⟨⟨by decide, by decide⟩,
    batch_continues_after_unmatched_row ["Name"] 1
      [[("Name", "x"), ("Filename", "a.pdf")]]
      [[("Name", "z"), ("Filename", "c.pdf")]]
      [("Other", "y"), ("Filename", "b.pdf")] "b.pdf" [("Other", "y")]
      (by decide) (by decide)⟩

/-- C8 (counterexample): with the reserved `Filename` column absent, the
batch is not rejected up front: `process_csv_batch` starts, iterates every
row, and returns one per-row error for each of the two rows
(`total_count = 2`, not an aborted batch). -/
theorem missing_filename_column_batch_still_runs :
    process_csv_batch ["Name"] [[("Name", "a")], [("Name", "b")]] =
      (0, 2, ["Error processing row 1: Filename",
        "Error processing row 2: Filename"]) ∧
    (process_csv_batch ["Name"] [[("Name", "a")], [("Name", "b")]]).2.1 ≠ 0 := by
  decide

/-- Cleaning the header names does not change the number of rows. -/
theorem PDFProcessor.clean_fieldnames_length (rows : List Row) :
    (clean_fieldnames rows).length = rows.length := by
  cases rows <;> simp [clean_fieldnames]

/-- If every row lacks the `Filename` key, every iteration of the batch
loop takes the per-row error branch. -/
theorem PDFProcessor.batch_loop_all_missing_filename (widget_names : List String)
    (rows : List Row) (i : Nat)
    (h : ∀ r ∈ rows, (popKey "Filename" r).isNone = true) :
    (batch_loop widget_names i rows).1 = 0 ∧
    (batch_loop widget_names i rows).2.length = rows.length := by
  induction rows generalizing i with
  | nil => simp [batch_loop]
  | cons r rest ih =>
    have hr : popKey "Filename" r = none := by
      have := h r (by simp)
      rwa [Option.isNone_iff_eq_none] at this
    have htail := ih (i + 1) (fun q hq => h q (by simp [hq]))
    simp only [batch_loop, hr, List.length_cons]
    exact ⟨htail.1, by simp [htail.2]⟩

/-- C8 (amended): a tabular input missing the reserved `Filename` column is
not rejected before the batch: `process_csv_batch` runs over all rows, each
row fails individually before any document work (its `Filename` pop raises),
and the result is zero successes with one error message per row. -/
theorem missing_filename_fails_every_row (widget_names : List String)
    (rows : List Row)
    (h : (clean_fieldnames rows).all
      (fun r => (popKey "Filename" r).isNone) = true) :
    (process_csv_batch widget_names rows).1 = 0 ∧
    (process_csv_batch widget_names rows).2.1 = rows.length ∧
    (process_csv_batch widget_names rows).2.2.length = rows.length := by
  simp only [List.all_eq_true] at h
  have hloop := PDFProcessor.batch_loop_all_missing_filename widget_names
    (clean_fieldnames rows) 1 h
  simp only [process_csv_batch]
  exact ⟨hloop.1,
    PDFProcessor.clean_fieldnames_length rows,
    by rw [hloop.2, PDFProcessor.clean_fieldnames_length]⟩

/-- Witness for the amended C8: two rows with a `Name` column and no
`Filename` column. -/
theorem missing_filename_fails_every_row_witness :
    ((clean_fieldnames [[("Name", "a")], [("Name", "b")]]).all
      (fun r => (popKey "Filename" r).isNone) = true) ∧
    ((process_csv_batch ["Name"] [[("Name", "a")], [("Name", "b")]]).1 = 0 ∧
      (process_csv_batch ["Name"] [[("Name", "a")], [("Name", "b")]]).2.1 =
        [[("Name", "a")], [("Name", "b")]].length ∧
      (process_csv_batch ["Name"] [[("Name", "a")], [("Name", "b")]]).2.2.length =
        [[("Name", "a")], [("Name", "b")]].length) :=
  ⟨by decide,
    missing_filename_fails_every_row ["Name"] [[("Name", "a")], [("Name", "b")]]
      (by decide)⟩

/-- C9 (counterexample): header cleaning is not limited to a leading
byte-order mark on the first header name.  A BOM at the start of the
*second* header name is removed as well, so that header does not come out
of the parse "exactly as it appears in the input". -/
theorem second_header_bom_also_removed :
    clean_fieldnames [[("A", "1"), (String.mk [bomChar, 'B'], "2")]] =
      [[("A", "1"), ("B", "2")]] ∧
    ("B" : String) ≠ String.mk [bomChar, 'B'] := by
  decide

/-- Folding Python dict insertions over pairs whose keys are all new and
distinct appends them unchanged. -/
theorem PDFProcessor.dictFold_eq_append (l : List (String × String)) (d : Row)
    (h : (d.map Prod.fst ++ l.map Prod.fst).Nodup) :
    l.foldl (fun d p => dictInsert d p.1 p.2) d = d ++ l := by
  induction l generalizing d with
  | nil => simp
  | cons p l ih =>
    have hh : (d.map Prod.fst ++ p.1 :: l.map Prod.fst).Nodup := by
      simpa using h
    have hmid := List.nodup_middle.mp hh
    have hnotin : ¬ p.1 ∈ d.map Prod.fst := by
      have := (List.nodup_cons.mp hmid).1
      intro hc
      exact this (List.mem_append_left _ hc)
    have hins : dictInsert d p.1 p.2 = d ++ [p] := by
      rw [dictInsert, if_neg]
      intro hc
      exact hnotin (by simpa using hc)
    have hrec : ((d ++ [p]).map Prod.fst ++ l.map Prod.fst).Nodup := by
      simpa [List.append_assoc] using h
    calc (p :: l).foldl (fun d p => dictInsert d p.1 p.2) d
        = l.foldl (fun d p => dictInsert d p.1 p.2) (dictInsert d p.1 p.2) := rfl
      _ = l.foldl (fun d p => dictInsert d p.1 p.2) (d ++ [p]) := by rw [hins]
      _ = (d ++ [p]) ++ l := ih (d ++ [p]) hrec
      _ = d ++ p :: l := by simp

/-- A dict comprehension over pairs with pairwise-distinct keys keeps all
pairs in order. -/
theorem PDFProcessor.dictOfPairs_eq_self_of_nodup (l : List (String × String))
    (h : (l.map Prod.fst).Nodup) :
    dictOfPairs l = l := by
  have := PDFProcessor.dictFold_eq_append l [] (by simpa using h)
  simpa [dictOfPairs] using this

/-- C9 (amended): header cleaning removes every byte-order-mark character
from every header name (`name.replace(bom, '')` over all names) and rebuilds
each row as a dict keyed by the cleaned names: when the cleaned names are
pairwise distinct, every rebuilt row carries the cleaned first-row header
names with its cell values untouched; names that become equal after BOM
removal are collapsed by the dict comprehension into a single column whose
value is the last cell (earlier cells dropped), as the final conjunct shows
on a `Name`/BOM-`Name` header pair. -/
theorem clean_fieldnames_headers (r0 : Row) (rest : List Row)
    (hlen : rest.all (fun r => r.length == r0.length) = true)
    (hnodup : ((rowKeys r0).map replaceBOM).Nodup) :
    (clean_fieldnames (r0 :: rest)).map rowKeys =
      List.replicate (rest.length + 1) ((rowKeys r0).map replaceBOM) ∧
    (clean_fieldnames (r0 :: rest)).map (List.map Prod.snd) =
      (r0 :: rest).map (List.map Prod.snd) ∧
    clean_fieldnames
        [[("Name", "a"), (String.mk [bomChar, 'N', 'a', 'm', 'e'], "b")]] =
      [[("Name", "b")]] := by
  simp only [List.all_eq_true, beq_iff_eq] at hlen
  have hclen : ((rowKeys r0).map replaceBOM).length = r0.length := by
    simp [rowKeys]
  have hzip : ∀ r : Row, r.length = r0.length →
      dictOfPairs (((rowKeys r0).map replaceBOM).zip (r.map Prod.snd)) =
        ((rowKeys r0).map replaceBOM).zip (r.map Prod.snd) := by
    intro r hrlen
    apply PDFProcessor.dictOfPairs_eq_self_of_nodup
    rw [List.map_fst_zip]
    · exact hnodup
    · simp [hclen, hrlen]
  refine ⟨?_, ?_, by decide⟩
  · simp only [clean_fieldnames, List.map_map]
    rw [List.eq_replicate_iff]
    constructor
    · simp
    · intro b hb
      simp only [List.mem_map, Function.comp] at hb
      obtain ⟨r, hr, hb2⟩ := hb
      have hrlen : r.length = r0.length := by
        rcases List.mem_cons.mp hr with h0 | hmem
        · rw [h0]
        · exact hlen r hmem
      rw [← hb2]
      show rowKeys (dictOfPairs
        (((rowKeys r0).map replaceBOM).zip (r.map Prod.snd))) = _
      rw [hzip r hrlen]
      unfold rowKeys
      rw [List.map_fst_zip]
      simp [hclen, hrlen]
  · simp only [clean_fieldnames, List.map_map]
    apply List.map_congr_left
    intro r hr
    have hrlen : r.length = r0.length := by
      rcases List.mem_cons.mp hr with h0 | hmem
      · rw [h0]
      · exact hlen r hmem
    show List.map Prod.snd (dictOfPairs
      (((rowKeys r0).map replaceBOM).zip (r.map Prod.snd))) = _
    rw [hzip r hrlen, List.map_snd_zip]
    simp [hclen, hrlen]

/-- Witness for the amended C9: a first row whose second header starts with
a byte-order mark (cleaned names `A`, `B` are distinct) and one further row
of the same width. -/
theorem clean_fieldnames_headers_witness :
    (([[("C", "3"), ("D", "4")]] : List Row).all
      (fun r => r.length == ([("A", "1"), (String.mk [bomChar, 'B'], "2")] : Row).length) = true ∧
      ((rowKeys [("A", "1"), (String.mk [bomChar, 'B'], "2")]).map replaceBOM).Nodup) ∧
    ((clean_fieldnames ([("A", "1"), (String.mk [bomChar, 'B'], "2")] ::
        [[("C", "3"), ("D", "4")]])).map rowKeys =
      List.replicate ([[("C", "3"), ("D", "4")]].length + 1)
        ((rowKeys [("A", "1"), (String.mk [bomChar, 'B'], "2")]).map replaceBOM) ∧
    (clean_fieldnames ([("A", "1"), (String.mk [bomChar, 'B'], "2")] ::
        [[("C", "3"), ("D", "4")]])).map (List.map Prod.snd) =
      ([("A", "1"), (String.mk [bomChar, 'B'], "2")] ::
        [[("C", "3"), ("D", "4")]]).map (List.map Prod.snd) ∧
    clean_fieldnames
        [[("Name", "a"), (String.mk [bomChar, 'N', 'a', 'm', 'e'], "b")]] =
      [[("Name", "b")]]) :=
  ⟨⟨by decide, by decide⟩,
    clean_fieldnames_headers [("A", "1"), (String.mk [bomChar, 'B'], "2")]
      [[("C", "3"), ("D", "4")]] (by decide) (by decide)⟩
